import Mathlib

/-!
Shallow embedding of the architecture guardrails checker
(ito-rs/tools/arch_guardrails.py) and proofs about its behaviour.

The script is pure apart from three interactions with the outside world:
the cargo-metadata subprocess, the filesystem walk over the two crate
source trees, and the cargo-tree subprocess.  Those are modelled as
explicit inputs (an `Env` record): a subprocess outcome is either a
non-zero-exit failure carrying stderr, or a success carrying its parsed
or raw output, and each scanned source tree is a list of
(relative path, file contents) pairs as produced by the directory walk.
Everything downstream of those inputs is translated function by function
from the Python source.
-/

namespace ArchGuardrails

/-- Python whitespace (the characters `str.strip` removes): ASCII
whitespace, the C0/C1 separator characters and the Unicode space
separators. -/
def isPySpace (c : Char) : Bool :=
  c == ' ' || c == '\t' || c == '\n' || c == '\r' || c == '\x0b' || c == '\x0c' ||
  c == '\x1c' || c == '\x1d' || c == '\x1e' || c == '\x1f' || c == '\x85' || c == '\xa0' ||
  c == ' ' || (' '.val ≤ c.val && c.val ≤ ' '.val) ||
  c == ' ' || c == ' ' || c == ' ' || c == ' ' || c == '　'

/-- Python `str.strip()`: drop leading and trailing whitespace. -/
def pyStrip (s : String) : String :=
  ⟨((s.data.dropWhile isPySpace).reverse.dropWhile isPySpace).reverse⟩

/-- The line-boundary characters of Python `str.splitlines`. -/
def isPyLineBreak (c : Char) : Bool :=
  c == '\n' || c == '\r' || c == '\x0b' || c == '\x0c' ||
  c == '\x1c' || c == '\x1d' || c == '\x1e' || c == '\x85' ||
  c == ' ' || c == ' '

/-- Worker for `pySplitlines`: `cur` is the current line, reversed. -/
def splitlinesAux : List Char → List Char → List (List Char)
  | [], cur => if cur.isEmpty then [] else [cur.reverse]
  | '\r' :: '\n' :: rest, cur => cur.reverse :: splitlinesAux rest []
  | c :: rest, cur =>
    if isPyLineBreak c then cur.reverse :: splitlinesAux rest []
    else splitlinesAux rest (c :: cur)

/-- Python `str.splitlines()`: split at line boundaries, `\r\n` counting
as a single boundary, with no trailing empty line. -/
def pySplitlines (s : String) : List String :=
  (splitlinesAux s.data []).map fun l => ⟨l⟩

/-- Python `str.startswith(t)`. -/
def pyStartswith (s t : String) : Bool :=
  t.data.isPrefixOf s.data

/-- Worker for `count_occurrences` on character lists: Python
`str.count` counts non-overlapping occurrences scanning left to right
(and returns `length + 1` for an empty needle).  The first argument is
fuel bounding the number of scan steps; every step consumes at least
one character, so `s.length` steps always suffice. -/
def countSubAux : Nat → List Char → List Char → Nat
  | _, s, [] => s.length + 1
  | 0, _, _ :: _ => 0
  | _ + 1, [], _ :: _ => 0
  | fuel + 1, c :: rest, n :: ns =>
    if (n :: ns).isPrefixOf (c :: rest) then
      countSubAux fuel (rest.drop ns.length) (n :: ns) + 1
    else countSubAux fuel rest (n :: ns)

/-- `count_occurrences(contents, needle)` from the source:
`contents.count(needle)`. -/
def count_occurrences (contents needle : String) : Nat :=
  countSubAux contents.data.length contents.data needle.data

/-- One workspace package as the script reads it out of the cargo
metadata JSON: its `name` and the names of its direct dependencies
(the script only ever projects each dependency object to its
`name` field). -/
structure Package where
  name : String
  dependencies : List String
deriving DecidableEq

/-- The `packages` dict built by `check_crate_edges`
(`pkg["name"] -> pkg`, later entries overwriting earlier ones) followed
by `.get`. -/
def packagesGet (pkgs : List Package) (crate : String) : Option Package :=
  pkgs.foldl (fun acc p => if p.name == crate then some p else acc) none

/-- Python string comparison `a <= b`: lexicographic by code point. -/
def strLeb : List Char → List Char → Bool
  | [], _ => true
  | _ :: _, [] => false
  | a :: as, b :: bs =>
    if a.toNat < b.toNat then true
    else if b.toNat < a.toNat then false
    else strLeb as bs

/-- Python `sorted` on strings: ascending code-point lexicographic
order. -/
def sortedStrings (l : List String) : List String :=
  List.insertionSort (fun a b => strLeb a.data b.data = true) l

/-- Loop body of the FORBIDDEN pass of `check_crate_edges`: look the
rule's source crate up (absence is a violation of its own), then report
every sorted forbidden target found among the source's dependency
names. -/
def forbiddenRuleViolations (pkgs : List Package)
    (rule : String × List String) : List String :=
  match packagesGet pkgs rule.1 with
  | none => ["missing workspace crate: " ++ rule.1]
  | some src =>
    ((sortedStrings rule.2).filter
        (fun t => src.dependencies.contains t)).map
      (fun t => "forbidden dependency edge: " ++ rule.1 ++ " -> " ++ t)

/-- The FORBIDDEN loop of `check_crate_edges`, appending each rule's
violations to the accumulated list. -/
def forbiddenEdgeViolations (pkgs : List Package)
    (rules : List (String × List String)) : List String :=
  rules.foldl (fun acc rule => acc ++ forbiddenRuleViolations pkgs rule) []

/-- Loop body of the REQUIRED pass of `check_crate_edges`: same lookup,
reporting every sorted required target absent from the dependency
names. -/
def requiredRuleViolations (pkgs : List Package)
    (rule : String × List String) : List String :=
  match packagesGet pkgs rule.1 with
  | none => ["missing workspace crate: " ++ rule.1]
  | some src =>
    ((sortedStrings rule.2).filter
        (fun t => !(src.dependencies.contains t))).map
      (fun t => "missing required dependency edge: " ++ rule.1 ++ " -> " ++ t)

/-- The REQUIRED loop of `check_crate_edges`. -/
def requiredEdgeViolations (pkgs : List Package)
    (rules : List (String × List String)) : List String :=
  rules.foldl (fun acc rule => acc ++ requiredRuleViolations pkgs rule) []

/-- A direct dependency edge of the loaded graph: the source crate is
declared and the target appears among its dependency names.  This is
the notion of edge the spec's edge-policy properties quantify over. -/
def hasEdge (pkgs : List Package) (src tgt : String) : Bool :=
  match packagesGet pkgs src with
  | none => false
  | some p => p.dependencies.contains tgt

/-- Whether some edge of the graph matches some forbidden rule. -/
def anyMatchingEdge (pkgs : List Package)
    (rules : List (String × List String)) : Bool :=
  rules.any (fun rule => rule.2.any (fun t => hasEdge pkgs rule.1 t))

/-- Whether every (source, target) pair of the rule set is an edge of
the graph. -/
def allRequiredEdgesPresent (pkgs : List Package)
    (rules : List (String × List String)) : Bool :=
  rules.all (fun rule => rule.2.all (fun t => hasEdge pkgs rule.1 t))

/-- `check_crate_edges`, parameterised by the loaded packages and the
two rule tables; the single `violations` list of the source is the
forbidden-pass list followed by the required-pass list. -/
def check_crate_edges (pkgs : List Package)
    (forbidden required : List (String × List String)) : List String :=
  forbiddenEdgeViolations pkgs forbidden ++ requiredEdgeViolations pkgs required

/-- `FORBIDDEN_CRATE_EDGES` from the source, in dict insertion order. -/
def FORBIDDEN_CRATE_EDGES : List (String × List String) :=
  [("ito-domain", ["ito-cli", "ito-web", "ito-core"]),
   ("ito-core", ["ito-cli", "ito-web"]),
   ("ito-cli", ["ito-domain"])]

/-- `REQUIRED_CRATE_EDGES` from the source. -/
def REQUIRED_CRATE_EDGES : List (String × List String) :=
  [("ito-core", ["ito-domain"]),
   ("ito-cli", ["ito-core"]),
   ("ito-web", ["ito-core"])]

/-- `DOMAIN_API_BASELINE` from the source. -/
def DOMAIN_API_BASELINE : List (String × List (String × Nat)) :=
  [("miette::", []),
   ("std::fs", [("ito-rs/crates/ito-domain/src/discovery.rs", 9)]),
   ("std::process::Command", [])]

/-- `CORE_API_BASELINE` from the source. -/
def CORE_API_BASELINE : List (String × List (String × Nat)) :=
  [("miette::", [("ito-rs/crates/ito-core/src/harness/types.rs", 1),
                 ("ito-rs/crates/ito-core/src/harness/opencode.rs", 3),
                 ("ito-rs/crates/ito-core/src/harness/stub.rs", 4)]),
   ("miette!", [("ito-rs/crates/ito-core/src/harness/opencode.rs", 2),
                ("ito-rs/crates/ito-core/src/harness/stub.rs", 3)])]

/-- Python dict `.get` on string-keyed dicts represented as
association lists with later entries overwriting earlier ones. -/
def pyDictGet (d : List (String × Nat)) (k : String) : Option Nat :=
  d.foldl (fun acc kv => if kv.1 == k then some kv.2 else acc) none

/-- Python dict assignment `d[k] = v`: update in place when the key is
present, append otherwise (insertion order preserved). -/
def pyDictInsert (d : List (String × Nat)) (k : String) (v : Nat) : List (String × Nat) :=
  if d.any (fun kv => kv.1 == k) then
    d.map (fun kv => if kv.1 == k then (k, v) else kv)
  else d ++ [(k, v)]

/-- Path order on (relative path, contents) pairs: `sorted` over the
directory walk compares the paths. -/
def fileLe (a b : String × String) : Prop := strLeb a.1.data b.1.data = true

instance : DecidableRel fileLe := fun a b =>
  inferInstanceAs (Decidable (strLeb a.1.data b.1.data = true))

/-- Strict path order on (path, contents) pairs. -/
def fileLt (a b : String × String) : Prop := fileLe a b ∧ a.1 ≠ b.1

/-- `sorted(domain_src.rglob("*.rs"))`: the scanned files in ascending
path order. -/
def sortFilesByPath (files : List (String × String)) : List (String × String) :=
  List.insertionSort fileLe files

/-- Python tuple comparison `a <= b` on `(str, int)` pairs:
lexicographic, string first. -/
def itemLeb (a b : String × Nat) : Bool :=
  if a.1 == b.1 then a.2 ≤ b.2 else strLeb a.1.data b.1.data

/-- The order used by `sorted(actual_counts.items())`. -/
def itemLe (a b : String × Nat) : Prop := itemLeb a b = true

instance : DecidableRel itemLe := fun a b =>
  inferInstanceAs (Decidable (itemLeb a b = true))

/-- `sorted(actual_counts.items())`. -/
def sortItems (items : List (String × Nat)) : List (String × Nat) :=
  List.insertionSort itemLe items

/-- The `actual_counts` loop shared by `check_domain_api_bans` and
`check_core_api_bans`: walk the files in sorted path order and record
each file whose per-file occurrence count (`countFile`, the one point
where the two scans differ) is positive. -/
def actualCounts (countFile : String → String → Nat)
    (files : List (String × String)) (symbol : String) : List (String × Nat) :=
  (sortFilesByPath files).foldl (fun acc file =>
    let count := countFile file.2 symbol
    if 0 < count then pyDictInsert acc file.1 count else acc) []

/-- The entry the `actual_counts` loop records for one scanned file:
its path paired with its occurrence count when that count is positive,
nothing otherwise.  Characterisation target for the loop, not itself
part of the source. -/
def countEntry (countFile : String → String → Nat) (symbol : String)
    (file : String × String) : Option (String × Nat) :=
  if 0 < countFile file.2 symbol then some (file.1, countFile file.2 symbol) else none

/-- The violation-emitting body of the `for rel_path, count in
sorted(actual_counts.items())` loop, identical in both scans. -/
def apiBanEmission (symbol : String) (baseline : List (String × Nat))
    (relPath : String) (count : Nat) : List String :=
  match pyDictGet baseline relPath with
  | none =>
    ["new " ++ symbol ++ " usage in " ++ relPath ++ " (" ++ toString count ++ " matches)"]
  | some allowed =>
    if allowed < count then
      ["increased " ++ symbol ++ " usage in " ++ relPath ++ " (" ++ toString count ++
        " > baseline " ++ toString allowed ++ ")"]
    else []

/-- Per-symbol scan body shared by both API-ban checks. -/
def apiBanRuleViolations (countFile : String → String → Nat)
    (files : List (String × String)) (symbol : String)
    (baseline : List (String × Nat)) : List String :=
  (sortItems (actualCounts countFile files symbol)).foldl
    (fun acc pc => acc ++ apiBanEmission symbol baseline pc.1 pc.2) []

/-- Per-file counting of `check_domain_api_bans`: the raw substring
count over the file's full text. -/
def domainFileCount (contents symbol : String) : Nat :=
  count_occurrences contents symbol

/-- Per-file counting of `check_core_api_bans`: lines whose stripped
content starts with `///` are dropped and the remaining lines rejoined
with newlines before counting. -/
def coreFileCount (contents symbol : String) : Nat :=
  let nonDocLines := (pySplitlines contents).filter
    (fun line => !(pyStartswith (pyStrip line) "///"))
  count_occurrences (String.intercalate "\n" nonDocLines) symbol

/-- `check_domain_api_bans`, parameterised by the scanned files and the
baseline table. -/
def check_domain_api_bans (files : List (String × String))
    (rules : List (String × List (String × Nat))) : List String :=
  rules.foldl (fun acc rule =>
    acc ++ apiBanRuleViolations domainFileCount files rule.1 rule.2) []

/-- `check_core_api_bans`, parameterised by the scanned files and the
baseline table. -/
def check_core_api_bans (files : List (String × String))
    (rules : List (String × List (String × Nat))) : List String :=
  rules.foldl (fun acc rule =>
    acc ++ apiBanRuleViolations coreFileCount files rule.1 rule.2) []

/-- Outcome of a `subprocess.run(..., check=True)` call: a
`CalledProcessError` carrying stderr, or normal completion carrying
stdout. -/
inductive CmdResult where
  | failed (stderr : String)
  | completed (stdout : String)
deriving DecidableEq

/-- Split at every newline character (no newline collapsing: this is
the segmentation the regex multiline `^` induces, not Python
`splitlines`). -/
def splitOnNewline : List Char → List (List Char)
  | [] => [[]]
  | c :: rest =>
    if c = '\n' then [] :: splitOnNewline rest
    else
      match splitOnNewline rest with
      | [] => [[c]]
      | l :: ls => (c :: l) :: ls

/-- `re.search("^ito-web v", tree_output, flags=re.MULTILINE)` as a
Boolean: the multiline `^` matches at the start of the string and
immediately after each newline, i.e. some newline-delimited segment of
the output starts with "ito-web v". -/
def treeReportsItoWeb (stdout : String) : Bool :=
  (splitOnNewline stdout.data).any
    (fun line => "ito-web v".data.isPrefixOf line)

/-- `check_cli_no_default_features_web_decoupling`, as a function of
the cargo-tree outcome.  On failure the single violation carries the
stripped stderr (or a stock phrase when that is empty); on success the
stdout is searched for a line starting with "ito-web v". -/
def check_cli_no_default_features_web_decoupling (tree : CmdResult) : List String :=
  match tree with
  | .failed stderrRaw =>
    let stripped := pyStrip stderrRaw
    let details := if stripped == "" then "cargo tree command failed" else stripped
    ["unable to verify ito-cli no-default-features dependency tree: " ++ details]
  | .completed stdout =>
    if treeReportsItoWeb stdout then
      ["ito-cli --no-default-features still pulls ito-web in dependency tree"]
    else []

/-- Outcome of the cargo-metadata provider: non-zero exit carrying
stderr, or success carrying the parsed `packages` array (the JSON
decoding itself is not modelled; successful output arrives already
structured). -/
inductive MetaResult where
  | failed (stderr : String)
  | ok (packages : List Package)
deriving DecidableEq

/-- `run_cargo_metadata`: on non-zero provider exit the script prints
"FAIL: unable to run cargo metadata" and the captured stderr, then
raises `SystemExit(1)`; the error branch carries exactly those two
lines. -/
def run_cargo_metadata (outcome : MetaResult) : Except (List String) (List Package) :=
  match outcome with
  | .failed stderr => .error ["FAIL: unable to run cargo metadata", stderr]
  | .ok pkgs => .ok pkgs

/-- `report(group_name, violations)`: the lines it prints. -/
def reportLines (groupName : String) (violations : List String) : List String :=
  if violations.isEmpty then ["OK: " ++ groupName]
  else ("FAIL: " ++ groupName) :: violations.map (fun v => "  - " ++ v)

/-- Everything `main` consumes from the outside world. -/
structure Env where
  metaOutcome : MetaResult
  domainFiles : List (String × String)
  coreFiles : List (String × String)
  treeOutcome : CmdResult
deriving DecidableEq

/-- The printed lines and the process exit status of one run. -/
structure RunOutput where
  lines : List String
  exitCode : Nat
deriving DecidableEq

/-- A concrete clean workspace graph. -/
def pkgsOk : List Package :=
  [⟨"ito-domain", []⟩, ⟨"ito-core", ["ito-domain"]⟩,
   ⟨"ito-cli", ["ito-core"]⟩, ⟨"ito-web", ["ito-core"]⟩]

/-- `main` (with the `SystemExit(1)` escape of `run_cargo_metadata`,
which fires inside `check_crate_edges` before any other group runs):
run the four check groups, print the four reports, and exit 0 exactly
when no group reported a violation. -/
def pyMain (env : Env) : RunOutput :=
  match run_cargo_metadata env.metaOutcome with
  | .error errLines => ⟨errLines, 1⟩
  | .ok pkgs =>
    let edgeViolations := check_crate_edges pkgs FORBIDDEN_CRATE_EDGES REQUIRED_CRATE_EDGES
    let apiViolations := check_domain_api_bans env.domainFiles DOMAIN_API_BASELINE
    let coreApiViolations := check_core_api_bans env.coreFiles CORE_API_BASELINE
    let noWebViolations := check_cli_no_default_features_web_decoupling env.treeOutcome
    let out := reportLines "crate edge rules" edgeViolations ++
      reportLines "ito-domain API bans" apiViolations ++
      reportLines "ito-core API bans" coreApiViolations ++
      reportLines "ito-cli no-default-features decoupling" noWebViolations
    if edgeViolations.isEmpty && apiViolations.isEmpty &&
        coreApiViolations.isEmpty && noWebViolations.isEmpty then
      ⟨out ++ ["Architecture guardrails passed."], 0⟩
    else ⟨out, 1⟩

/-- A concrete environment in which every check group is clean. -/
def envOk : Env := ⟨.ok pkgsOk, [], [], .completed "ito-cli v0.1.0"⟩

/-! ### Order properties of the code-point comparison -/

theorem strLeb_cons_iff (x y : Char) (xs ys : List Char) :
    strLeb (x :: xs) (y :: ys) = true ↔
      x.toNat < y.toNat ∨ (x.toNat = y.toNat ∧ strLeb xs ys = true) := by
  by_cases h1 : x.toNat < y.toNat
  · simp [strLeb, h1]
  · by_cases h2 : y.toNat < x.toNat
    · have hne : strLeb (x :: xs) (y :: ys) = false := by
        simp [strLeb, h1, h2]
      rw [hne]
      constructor
      · intro h
        cases h
      · intro h
        rcases h with h | ⟨h, _⟩
        · exact absurd h h1
        · omega
    · have hxy : x.toNat = y.toNat := by omega
      simp [strLeb, h1, h2, hxy]

theorem strLeb_total (a b : List Char) : strLeb a b = true ∨ strLeb b a = true := by
  induction a generalizing b with
  | nil => exact Or.inl rfl
  | cons x xs ih =>
    cases b with
    | nil => exact Or.inr rfl
    | cons y ys =>
      rcases Nat.lt_trichotomy x.toNat y.toNat with h | h | h
      · exact Or.inl ((strLeb_cons_iff x y xs ys).mpr (Or.inl h))
      · rcases ih ys with h' | h'
        · exact Or.inl ((strLeb_cons_iff x y xs ys).mpr (Or.inr ⟨h, h'⟩))
        · exact Or.inr ((strLeb_cons_iff y x ys xs).mpr (Or.inr ⟨h.symm, h'⟩))
      · exact Or.inr ((strLeb_cons_iff y x ys xs).mpr (Or.inl h))

theorem strLeb_trans (a b c : List Char) (hab : strLeb a b = true)
    (hbc : strLeb b c = true) : strLeb a c = true := by
  induction a generalizing b c with
  | nil => rfl
  | cons x xs ih =>
    cases b with
    | nil => exact absurd hab (by simp [strLeb])
    | cons y ys =>
      cases c with
      | nil => exact absurd hbc (by simp [strLeb])
      | cons z zs =>
        rcases (strLeb_cons_iff x y xs ys).mp hab with h1 | ⟨h1, h1'⟩ <;>
          rcases (strLeb_cons_iff y z ys zs).mp hbc with h2 | ⟨h2, h2'⟩
        · exact (strLeb_cons_iff x z xs zs).mpr (Or.inl (by omega))
        · exact (strLeb_cons_iff x z xs zs).mpr (Or.inl (by omega))
        · exact (strLeb_cons_iff x z xs zs).mpr (Or.inl (by omega))
        · exact (strLeb_cons_iff x z xs zs).mpr (Or.inr ⟨by omega, ih ys zs h1' h2'⟩)

theorem strLeb_antisymm (a b : List Char) (hab : strLeb a b = true)
    (hba : strLeb b a = true) : a = b := by
  induction a generalizing b with
  | nil =>
    cases b with
    | nil => rfl
    | cons y ys => exact absurd hba (by simp [strLeb])
  | cons x xs ih =>
    cases b with
    | nil => exact absurd hab (by simp [strLeb])
    | cons y ys =>
      rcases (strLeb_cons_iff x y xs ys).mp hab with h1 | ⟨h1, h1'⟩ <;>
        rcases (strLeb_cons_iff y x ys xs).mp hba with h2 | ⟨h2, h2'⟩
      · omega
      · omega
      · omega
      · have hxy : x = y := Char.ext (UInt32.ext h1)
        rw [hxy, ih ys h1' h2']

theorem string_eq_of_data_eq (a b : String) (h : a.data = b.data) : a = b :=
  congrArg String.mk h

/-! ### Sorting the scanned files is order-canonical -/

theorem sortFilesByPath_perm (files : List (String × String)) :
    (sortFilesByPath files).Perm files :=
  List.perm_insertionSort fileLe files

theorem sortFilesByPath_sorted_lt (files : List (String × String))
    (hnd : (files.map Prod.fst).Nodup) :
    List.Sorted fileLt (sortFilesByPath files) := by
  haveI : IsTotal (String × String) fileLe :=
    ⟨fun a b => strLeb_total a.1.data b.1.data⟩
  haveI : IsTrans (String × String) fileLe :=
    ⟨fun a b c hab hbc => strLeb_trans a.1.data b.1.data c.1.data hab hbc⟩
  have hs : List.Sorted fileLe (sortFilesByPath files) :=
    List.sorted_insertionSort fileLe files
  have hndS : ((sortFilesByPath files).map Prod.fst).Nodup :=
    (((sortFilesByPath_perm files).map Prod.fst).nodup_iff).mpr hnd
  have hne : (sortFilesByPath files).Pairwise (fun a b => a.1 ≠ b.1) :=
    List.pairwise_map.mp hndS
  exact List.Pairwise.and hs hne

theorem sortFilesByPath_eq_of_perm (files files' : List (String × String))
    (hperm : files.Perm files') (hnd : (files.map Prod.fst).Nodup) :
    sortFilesByPath files = sortFilesByPath files' := by
  haveI : IsAntisymm (String × String) fileLt :=
    ⟨fun a b h1 h2 =>
      absurd (string_eq_of_data_eq a.1 b.1 (strLeb_antisymm _ _ h1.1 h2.1)) h1.2⟩
  exact List.eq_of_perm_of_sorted (r := fileLt)
    ((sortFilesByPath_perm files).trans
      (hperm.trans (sortFilesByPath_perm files').symm))
    (sortFilesByPath_sorted_lt files hnd)
    (sortFilesByPath_sorted_lt files' ((hperm.map Prod.fst).nodup_iff.mp hnd))

/-! ### Violation lists as concatenations of per-rule contributions -/

theorem foldl_append_eq {α β : Type _} (g : α → List β) (l : List α) (acc : List β) :
    l.foldl (fun a x => a ++ g x) acc = acc ++ l.flatMap g := by
  induction l generalizing acc with
  | nil => simp
  | cons x xs ih => simp [List.foldl_cons, ih, List.flatMap_cons]

theorem forbiddenEdgeViolations_eq_flatMap (pkgs : List Package)
    (rules : List (String × List String)) :
    forbiddenEdgeViolations pkgs rules
      = rules.flatMap (forbiddenRuleViolations pkgs) := by
  unfold forbiddenEdgeViolations
  rw [foldl_append_eq, List.nil_append]

theorem requiredEdgeViolations_eq_flatMap (pkgs : List Package)
    (rules : List (String × List String)) :
    requiredEdgeViolations pkgs rules
      = rules.flatMap (requiredRuleViolations pkgs) := by
  unfold requiredEdgeViolations
  rw [foldl_append_eq, List.nil_append]

theorem apiBanRuleViolations_eq_flatMap (countFile : String → String → Nat)
    (files : List (String × String)) (symbol : String)
    (baseline : List (String × Nat)) :
    apiBanRuleViolations countFile files symbol baseline
      = (sortItems (actualCounts countFile files symbol)).flatMap
          (fun pc => apiBanEmission symbol baseline pc.1 pc.2) := by
  unfold apiBanRuleViolations
  rw [foldl_append_eq, List.nil_append]

/-! ### Edge-policy claims -/

/-- C3 as stated fails on the code: the empty graph contains no edge
matching the forbidden rule ("a", ["b"]), yet the forbidden pass
reports the rule's source as a missing workspace crate instead of
returning an empty list. -/
theorem forbidden_pass_no_edge_counterexample :
    anyMatchingEdge [] [("a", ["b"])] = false
    ∧ forbiddenEdgeViolations [] [("a", ["b"])] = ["missing workspace crate: a"]
    ∧ forbiddenEdgeViolations [] [("a", ["b"])] ≠ [] :=
  ⟨by decide, by decide, by decide⟩

/-- C3 (amended): if moreover every forbidden rule's source package is
declared in the graph, and no edge of the graph matches any forbidden
rule, then the forbidden pass of the edge-policy check returns an empty
violation list. -/
theorem forbidden_pass_empty_of_no_matching_edge (pkgs : List Package)
    (rules : List (String × List String))
    (hsrc : ∀ r ∈ rules, (packagesGet pkgs r.1).isSome = true)
    (hedge : anyMatchingEdge pkgs rules = false) :
    forbiddenEdgeViolations pkgs rules = [] := by
  rw [forbiddenEdgeViolations_eq_flatMap, List.flatMap_eq_nil_iff]
  intro r hr
  obtain ⟨src, hsome⟩ := Option.isSome_iff_exists.mp (hsrc r hr)
  have hany : r.2.any (fun t => hasEdge pkgs r.1 t) = false := by
    have h := List.any_eq_false.mp hedge r hr
    simpa using h
  simp only [forbiddenRuleViolations, hsome]
  rw [List.map_eq_nil_iff, List.filter_eq_nil_iff]
  intro t ht
  have ht2 : t ∈ r.2 := (List.perm_insertionSort _ r.2).mem_iff.mp ht
  have h3 := List.any_eq_false.mp hany t ht2
  unfold hasEdge at h3
  rw [hsome] at h3
  simpa using h3

/-- Witness: a graph where the rule's source exists and carries none of
the forbidden targets. -/
theorem forbidden_pass_empty_of_no_matching_edge_witness :
    forbiddenEdgeViolations [⟨"a", ["c"]⟩] [("a", ["b"])] = [] :=
  forbidden_pass_empty_of_no_matching_edge [⟨"a", ["c"]⟩] [("a", ["b"])]
    (by decide) (by decide)

/-- C4 as stated fails on the code: for the required-rule set
[("a", [])] there is no (source, target) pair at all, so every pair is
vacuously present in the empty graph, yet the required pass reports
"missing workspace crate: a" instead of returning an empty list. -/
theorem required_pass_counterexample :
    allRequiredEdgesPresent [] [("a", [])] = true
    ∧ requiredEdgeViolations [] [("a", [])] = ["missing workspace crate: a"]
    ∧ requiredEdgeViolations [] [("a", [])] ≠ [] :=
  ⟨by decide, by decide, by decide⟩

/-- C4 (amended): if moreover every required rule's source package is
declared in the graph, and every (source, target) pair of the rule set
is a direct dependency edge of the graph, then the required pass of the
edge-policy check returns an empty violation list. -/
theorem required_pass_empty_of_edges_present (pkgs : List Package)
    (rules : List (String × List String))
    (hsrc : ∀ r ∈ rules, (packagesGet pkgs r.1).isSome = true)
    (hedge : allRequiredEdgesPresent pkgs rules = true) :
    requiredEdgeViolations pkgs rules = [] := by
  rw [requiredEdgeViolations_eq_flatMap, List.flatMap_eq_nil_iff]
  intro r hr
  obtain ⟨src, hsome⟩ := Option.isSome_iff_exists.mp (hsrc r hr)
  have hall : r.2.all (fun t => hasEdge pkgs r.1 t) = true := by
    have h := List.all_eq_true.mp hedge r hr
    simpa using h
  simp only [requiredRuleViolations, hsome]
  rw [List.map_eq_nil_iff, List.filter_eq_nil_iff]
  intro t ht
  have ht2 : t ∈ r.2 := (List.perm_insertionSort _ r.2).mem_iff.mp ht
  have h3 := List.all_eq_true.mp hall t ht2
  have h4 : src.dependencies.contains t = true := by
    unfold hasEdge at h3
    rw [hsome] at h3
    exact h3
  simpa using h4

/-- Witness: a graph containing every required edge of the rule set. -/
theorem required_pass_empty_of_edges_present_witness :
    requiredEdgeViolations [⟨"c", ["a"]⟩, ⟨"a", []⟩] [("c", ["a"])] = [] :=
  required_pass_empty_of_edges_present [⟨"c", ["a"]⟩, ⟨"a", []⟩] [("c", ["a"])]
    (by decide) (by decide)

/-- C5: a rule whose source package is absent from the graph
contributes exactly one "missing workspace crate: <name>" violation, in
the forbidden pass and in the required pass alike, and the rules before
and after it are still evaluated exactly as they would be on their
own. -/
theorem missing_crate_one_violation_and_continues (pkgs : List Package)
    (s : String) (ts : List String) (pre post : List (String × List String))
    (h : packagesGet pkgs s = none) :
    forbiddenEdgeViolations pkgs (pre ++ (s, ts) :: post)
      = forbiddenEdgeViolations pkgs pre ++ ["missing workspace crate: " ++ s]
        ++ forbiddenEdgeViolations pkgs post
    ∧ requiredEdgeViolations pkgs (pre ++ (s, ts) :: post)
      = requiredEdgeViolations pkgs pre ++ ["missing workspace crate: " ++ s]
        ++ requiredEdgeViolations pkgs post := by
  have hf : forbiddenRuleViolations pkgs (s, ts) = ["missing workspace crate: " ++ s] := by
    simp [forbiddenRuleViolations, h]
  have hr : requiredRuleViolations pkgs (s, ts) = ["missing workspace crate: " ++ s] := by
    simp [requiredRuleViolations, h]
  constructor
  · rw [forbiddenEdgeViolations_eq_flatMap, List.flatMap_append, List.flatMap_cons,
      hf, ← forbiddenEdgeViolations_eq_flatMap, ← forbiddenEdgeViolations_eq_flatMap,
      List.append_assoc]
  · rw [requiredEdgeViolations_eq_flatMap, List.flatMap_append, List.flatMap_cons,
      hr, ← requiredEdgeViolations_eq_flatMap, ← requiredEdgeViolations_eq_flatMap,
      List.append_assoc]

/-- Witness for C5: the middle rule names an absent crate, the rules
around it still run. -/
theorem missing_crate_one_violation_and_continues_witness :
    forbiddenEdgeViolations [⟨"b", ["c"]⟩] ([("b", ["c"])] ++ ("a", ["b"]) :: [("b", ["d"])])
      = forbiddenEdgeViolations [⟨"b", ["c"]⟩] [("b", ["c"])]
        ++ ["missing workspace crate: " ++ "a"]
        ++ forbiddenEdgeViolations [⟨"b", ["c"]⟩] [("b", ["d"])]
    ∧ requiredEdgeViolations [⟨"b", ["c"]⟩] ([("b", ["c"])] ++ ("a", ["b"]) :: [("b", ["d"])])
      = requiredEdgeViolations [⟨"b", ["c"]⟩] [("b", ["c"])]
        ++ ["missing workspace crate: " ++ "a"]
        ++ requiredEdgeViolations [⟨"b", ["c"]⟩] [("b", ["d"])] :=
  missing_crate_one_violation_and_continues [⟨"b", ["c"]⟩] "a" ["b"]
    [("b", ["c"])] [("b", ["d"])] (by decide)

/-! ### Build-isolation and driver claims -/

/-- C6: per outcome of the cargo-tree command exactly one verification
strategy decides the build-isolation check — a non-zero exit status
yields the single build-failure violation, a normal exit yields the
single text-search violation or nothing — so the check always returns
at most one violation. -/
theorem build_isolation_single_violation :
    (∀ stderr, (check_cli_no_default_features_web_decoupling (.failed stderr)).length = 1)
    ∧ (∀ stdout, check_cli_no_default_features_web_decoupling (.completed stdout)
        = if treeReportsItoWeb stdout then
            ["ito-cli --no-default-features still pulls ito-web in dependency tree"]
          else [])
    ∧ ∀ tree, (check_cli_no_default_features_web_decoupling tree).length ≤ 1 := by
  refine ⟨fun stderr => rfl, fun stdout => rfl, fun tree => ?_⟩
  cases tree with
  | failed stderr => simp [check_cli_no_default_features_web_decoupling]
  | completed stdout =>
    by_cases h : treeReportsItoWeb stdout = true
    · simp [check_cli_no_default_features_web_decoupling, h]
    · simp [check_cli_no_default_features_web_decoupling, h]

/-- C10: the build-isolation check flags the forbidden package exactly
when some newline-delimited segment of the cargo-tree stdout begins
with "ito-web v"; an occurrence preceded by indentation or appearing
mid-line (as witnessed concretely below, where the substring occurs but
no segment starts with it) produces no violation. -/
theorem web_violation_iff_line_start :
    (∀ stdout, check_cli_no_default_features_web_decoupling (.completed stdout) ≠ []
        ↔ treeReportsItoWeb stdout = true)
    ∧ (∀ stdout, treeReportsItoWeb stdout = true
        ↔ ∃ line ∈ splitOnNewline stdout.data, "ito-web v".data.isPrefixOf line = true)
    ∧ check_cli_no_default_features_web_decoupling (.completed "  ito-web v0.1.0") = []
    ∧ check_cli_no_default_features_web_decoupling (.completed "foo ito-web v0.1.0\nbar") = []
    ∧ 0 < count_occurrences "  ito-web v0.1.0" "ito-web v"
    ∧ 0 < count_occurrences "foo ito-web v0.1.0\nbar" "ito-web v"
    ∧ check_cli_no_default_features_web_decoupling (.completed "foo\nito-web v0.1.0")
        = ["ito-cli --no-default-features still pulls ito-web in dependency tree"] := by
  refine ⟨fun stdout => ?_, fun stdout => ?_, by decide, by decide, by decide, by decide,
    by decide⟩
  · by_cases h : treeReportsItoWeb stdout = true
    · simp [check_cli_no_default_features_web_decoupling, h]
    · simp [check_cli_no_default_features_web_decoupling, h]
  · simp [treeReportsItoWeb, List.any_eq_true]

/-- C7: when the metadata provider exits non-zero, the whole run stops
with exit status 1, the printed output being exactly the fatal line and
the provider's captured stderr — no group report ("OK:"/"FAIL:" plus
itemised violations) is produced. -/
theorem metadata_failure_aborts_run (env : Env) (stderr : String)
    (h : env.metaOutcome = .failed stderr) :
    pyMain env = ⟨["FAIL: unable to run cargo metadata", stderr], 1⟩ := by
  simp [pyMain, run_cargo_metadata, h]

/-- Witness for C7: the provider fails while the scans and the tree
check would each have produced violations; none of them is reported. -/
theorem metadata_failure_aborts_run_witness :
    pyMain ⟨.failed "boom", [("a.rs", "std::fs")], [], .completed "ito-web v1"⟩
      = ⟨["FAIL: unable to run cargo metadata", "boom"], 1⟩ :=
  metadata_failure_aborts_run
    ⟨.failed "boom", [("a.rs", "std::fs")], [], .completed "ito-web v1"⟩ "boom" rfl

/-- C1: on every run in which the metadata provider succeeds, the exit
status is 0 if all four check groups produced empty violation lists and
1 in every other case. -/
theorem exit_zero_iff_all_groups_clean (env : Env) (pkgs : List Package)
    (h : env.metaOutcome = .ok pkgs) :
    (pyMain env).exitCode
      = if check_crate_edges pkgs FORBIDDEN_CRATE_EDGES REQUIRED_CRATE_EDGES = []
          ∧ check_domain_api_bans env.domainFiles DOMAIN_API_BASELINE = []
          ∧ check_core_api_bans env.coreFiles CORE_API_BASELINE = []
          ∧ check_cli_no_default_features_web_decoupling env.treeOutcome = []
        then 0 else 1 := by
  simp only [pyMain, run_cargo_metadata, h]
  by_cases h1 : check_crate_edges pkgs FORBIDDEN_CRATE_EDGES REQUIRED_CRATE_EDGES = [] <;>
    by_cases h2 : check_domain_api_bans env.domainFiles DOMAIN_API_BASELINE = [] <;>
      by_cases h3 : check_core_api_bans env.coreFiles CORE_API_BASELINE = [] <;>
        by_cases h4 : check_cli_no_default_features_web_decoupling env.treeOutcome = [] <;>
          simp [h1, h2, h3, h4, List.isEmpty_iff]

/-- Witness for C1 at a concrete clean environment. -/
theorem exit_zero_iff_all_groups_clean_witness :
    (pyMain envOk).exitCode
      = if check_crate_edges pkgsOk FORBIDDEN_CRATE_EDGES REQUIRED_CRATE_EDGES = []
          ∧ check_domain_api_bans envOk.domainFiles DOMAIN_API_BASELINE = []
          ∧ check_core_api_bans envOk.coreFiles CORE_API_BASELINE = []
          ∧ check_cli_no_default_features_web_decoupling envOk.treeOutcome = []
        then 0 else 1 :=
  exit_zero_iff_all_groups_clean envOk pkgsOk rfl

/-! ### The source API scan -/

theorem pyDictInsert_of_fresh (d : List (String × Nat)) (k : String) (v : Nat)
    (h : ∀ kv ∈ d, kv.1 ≠ k) : pyDictInsert d k v = d ++ [(k, v)] := by
  have hany : d.any (fun kv => kv.1 == k) = false := by
    rw [List.any_eq_false]
    intro kv hkv
    simp [h kv hkv]
  simp [pyDictInsert, hany]

theorem countEntry_eq_some (countFile : String → String → Nat) (symbol : String)
    (file : String × String) (pc : String × Nat)
    (hg : countEntry countFile symbol file = some pc) :
    pc = (file.1, countFile file.2 symbol) ∧ 0 < countFile file.2 symbol := by
  unfold countEntry at hg
  by_cases hcf : 0 < countFile file.2 symbol
  · rw [if_pos hcf] at hg
    exact ⟨(Option.some.inj hg).symm, hcf⟩
  · rw [if_neg hcf] at hg
    cases hg

theorem countsFold_eq_filterMap (countFile : String → String → Nat) (symbol : String)
    (l : List (String × String)) (acc : List (String × Nat))
    (hdisj : ∀ kv ∈ acc, ∀ f ∈ l, kv.1 ≠ f.1)
    (hnd : (l.map Prod.fst).Nodup) :
    l.foldl (fun acc file =>
        let count := countFile file.2 symbol
        if 0 < count then pyDictInsert acc file.1 count else acc) acc
      = acc ++ l.filterMap (countEntry countFile symbol) := by
  induction l generalizing acc with
  | nil => simp
  | cons f fs ih =>
    have hnd1 : (f.1 :: fs.map Prod.fst).Nodup := by simpa using hnd
    have hcons := List.nodup_cons.mp hnd1
    rw [List.foldl_cons]
    change List.foldl _
      (if 0 < countFile f.2 symbol then
        pyDictInsert acc f.1 (countFile f.2 symbol) else acc) fs = _
    by_cases hc : 0 < countFile f.2 symbol
    · have hins : pyDictInsert acc f.1 (countFile f.2 symbol)
          = acc ++ [(f.1, countFile f.2 symbol)] :=
        pyDictInsert_of_fresh _ _ _
          (fun kv hkv => hdisj kv hkv f (List.mem_cons_self f fs))
      have hdisj2 : ∀ kv ∈ acc ++ [(f.1, countFile f.2 symbol)],
          ∀ g ∈ fs, kv.1 ≠ g.1 := by
        intro kv hkv g hg
        rcases List.mem_append.mp hkv with hkv | hkv
        · exact hdisj kv hkv g (List.mem_cons_of_mem f hg)
        · have hkv1 : kv = (f.1, countFile f.2 symbol) := by simpa using hkv
          rw [hkv1]
          show f.1 ≠ g.1
          intro hcontra
          refine hcons.1 ?_
          rw [hcontra]
          exact List.mem_map.mpr ⟨g, hg, rfl⟩
      have hentry : countEntry countFile symbol f = some (f.1, countFile f.2 symbol) := by
        unfold countEntry
        rw [if_pos hc]
      rw [if_pos hc, hins, ih (acc ++ [(f.1, countFile f.2 symbol)]) hdisj2 hcons.2,
        List.filterMap_cons_some hentry, List.append_assoc]
      rfl
    · have hdisj2 : ∀ kv ∈ acc, ∀ g ∈ fs, kv.1 ≠ g.1 :=
        fun kv hkv g hg => hdisj kv hkv g (List.mem_cons_of_mem f hg)
      have hentry : countEntry countFile symbol f = none := by
        unfold countEntry
        rw [if_neg hc]
      rw [if_neg hc, ih acc hdisj2 hcons.2, List.filterMap_cons_none hentry]

theorem actualCounts_eq_filterMap (countFile : String → String → Nat)
    (files : List (String × String)) (symbol : String)
    (hnd : (files.map Prod.fst).Nodup) :
    actualCounts countFile files symbol
      = (sortFilesByPath files).filterMap (countEntry countFile symbol) := by
  have hndS : ((sortFilesByPath files).map Prod.fst).Nodup :=
    ((sortFilesByPath_perm files).map Prod.fst).nodup_iff.mpr hnd
  unfold actualCounts
  rw [countsFold_eq_filterMap countFile symbol (sortFilesByPath files) []
    (by intro kv hkv; cases hkv) hndS]
  rw [List.nil_append]

theorem countP_key_filterMap (countFile : String → String → Nat) (symbol : String)
    (l : List (String × String)) (p s : String)
    (hnd : (l.map Prod.fst).Nodup) (hmem : (p, s) ∈ l) :
    (l.filterMap (countEntry countFile symbol)).countP (fun pc => pc.1 == p)
      = if 0 < countFile s symbol then 1 else 0 := by
  induction l with
  | nil => cases hmem
  | cons f fs ih =>
    have hnd1 : (f.1 :: fs.map Prod.fst).Nodup := by simpa using hnd
    have hcons := List.nodup_cons.mp hnd1
    have keyZero : p ∉ fs.map Prod.fst →
        (fs.filterMap (countEntry countFile symbol)).countP (fun pc => pc.1 == p)
          = 0 := by
      intro hp
      rw [List.countP_eq_zero]
      intro pc hpc
      obtain ⟨file, hfile, hg⟩ := List.mem_filterMap.mp hpc
      obtain ⟨hpc1, -⟩ := countEntry_eq_some countFile symbol file pc hg
      rw [hpc1]
      show ¬((file.1 == p) = true)
      intro hcontra
      exact hp (List.mem_map.mpr ⟨file, hfile, beq_iff_eq.mp hcontra⟩)
    rcases List.mem_cons.mp hmem with heq | htail
    · have hf : f = (p, s) := heq.symm
      subst hf
      have hp : p ∉ fs.map Prod.fst := hcons.1
      by_cases hc : 0 < countFile s symbol
      · have hentry : countEntry countFile symbol (p, s) = some (p, countFile s symbol) := by
          unfold countEntry
          rw [if_pos hc]
        rw [List.filterMap_cons_some hentry, List.countP_cons, keyZero hp, if_pos hc]
        simp
      · have hentry : countEntry countFile symbol (p, s) = none := by
          unfold countEntry
          rw [if_neg hc]
        rw [List.filterMap_cons_none hentry, keyZero hp, if_neg hc]
    · have hfp : f.1 ≠ p := by
        intro hcontra
        refine hcons.1 ?_
        rw [hcontra]
        exact List.mem_map.mpr ⟨(p, s), htail, rfl⟩
      have ihr := ih hcons.2 htail
      cases hgf : countEntry countFile symbol f with
      | none => rw [List.filterMap_cons_none hgf, ihr]
      | some pc =>
        obtain ⟨hpc1, -⟩ := countEntry_eq_some countFile symbol f pc hgf
        rw [List.filterMap_cons_some hgf, List.countP_cons, ihr, hpc1]
        simp [hfp]

theorem sortItems_perm (items : List (String × Nat)) : (sortItems items).Perm items :=
  List.perm_insertionSort itemLe items

theorem actualCounts_congr (countFile : String → String → Nat)
    (files files' : List (String × String)) (symbol : String)
    (h : sortFilesByPath files = sortFilesByPath files') :
    actualCounts countFile files symbol = actualCounts countFile files' symbol := by
  unfold actualCounts
  rw [h]

/-- C8: the source API scan is a function of the set of scanned files
alone; a run that enumerates the unchanged source tree in any other
order (any permutation of the same path-distinct files) produces the
identical violation list in the identical order, because the scan sorts
the enumeration into ascending path order before counting. -/
theorem domain_scan_deterministic (files files' : List (String × String))
    (rules : List (String × List (String × Nat)))
    (hperm : files.Perm files') (hnd : (files.map Prod.fst).Nodup) :
    check_domain_api_bans files rules = check_domain_api_bans files' rules := by
  have hsort := sortFilesByPath_eq_of_perm files files' hperm hnd
  have hrule : ∀ symbol baseline,
      apiBanRuleViolations domainFileCount files symbol baseline
        = apiBanRuleViolations domainFileCount files' symbol baseline := by
    intro symbol baseline
    unfold apiBanRuleViolations
    rw [actualCounts_congr domainFileCount files files' symbol hsort]
  have hfun : (fun (acc : List String) (rule : String × List (String × Nat)) =>
      acc ++ apiBanRuleViolations domainFileCount files rule.1 rule.2)
      = (fun acc rule => acc ++ apiBanRuleViolations domainFileCount files' rule.1 rule.2) := by
    funext acc rule
    rw [hrule]
  unfold check_domain_api_bans
  rw [hfun]

/-- Witness for C8: swapping the enumeration order of two files leaves
the report unchanged. -/
theorem domain_scan_deterministic_witness :
    check_domain_api_bans [("a.rs", "std::fs"), ("b.rs", "y")] DOMAIN_API_BASELINE
      = check_domain_api_bans [("b.rs", "y"), ("a.rs", "std::fs")] DOMAIN_API_BASELINE :=
  domain_scan_deterministic _ _ DOMAIN_API_BASELINE (List.Perm.swap _ _ _) (by decide)

/-- C2 as stated fails on the code: the emitted messages carry the
banned symbol and the word "matches"/the symbol, not the claimed
"new usage in <file> (<count> hits)" / "increased usage in <file>
(<count> > baseline <n>)" templates. -/
theorem api_scan_message_counterexample :
    check_domain_api_bans [("x.rs", "std::fs")] [("std::fs", [])]
      = ["new std::fs usage in x.rs (1 matches)"]
    ∧ check_domain_api_bans [("x.rs", "std::fs")] [("std::fs", [])]
      ≠ ["new usage in x.rs (1 hits)"]
    ∧ check_domain_api_bans [("x.rs", "std::fs std::fs std::fs")]
        [("std::fs", [("x.rs", 2)])]
      = ["increased std::fs usage in x.rs (3 > baseline 2)"]
    ∧ check_domain_api_bans [("x.rs", "std::fs std::fs std::fs")]
        [("std::fs", [("x.rs", 2)])]
      ≠ ["increased usage in x.rs (3 > baseline 2)"] :=
  ⟨by decide, by decide, by decide, by decide⟩

/-- C2 (amended): for a scanned file with path-distinct enumeration,
the per-rule scan output is the concatenation of per-file emissions
over the sorted positive counts; the file contributes exactly one entry
when its count is positive and none otherwise, the entry carries its
true count, and the emission for that entry is exactly one violation
with message "new <symbol> usage in <file> (<count> matches)" when no
baseline entry exists, exactly one violation with message
"increased <symbol> usage in <file> (<count> > baseline <n>)" when the
baseline entry is exceeded, and nothing when the count is at or below
the baseline allowance. -/
theorem api_scan_per_file_violation (countFile : String → String → Nat)
    (files : List (String × String)) (symbol : String) (baseline : List (String × Nat))
    (p s : String) (hnd : (files.map Prod.fst).Nodup) (hmem : (p, s) ∈ files) :
    apiBanRuleViolations countFile files symbol baseline
      = (sortItems (actualCounts countFile files symbol)).flatMap
          (fun pc => apiBanEmission symbol baseline pc.1 pc.2)
    ∧ (sortItems (actualCounts countFile files symbol)).countP (fun pc => pc.1 == p)
        = (if 0 < countFile s symbol then 1 else 0)
    ∧ (0 < countFile s symbol →
        (p, countFile s symbol) ∈ sortItems (actualCounts countFile files symbol))
    ∧ (pyDictGet baseline p = none →
        apiBanEmission symbol baseline p (countFile s symbol)
          = ["new " ++ symbol ++ " usage in " ++ p ++ " ("
              ++ toString (countFile s symbol) ++ " matches)"])
    ∧ (∀ allowed, pyDictGet baseline p = some allowed →
        apiBanEmission symbol baseline p (countFile s symbol)
          = if allowed < countFile s symbol then
              ["increased " ++ symbol ++ " usage in " ++ p ++ " ("
                ++ toString (countFile s symbol) ++ " > baseline "
                ++ toString allowed ++ ")"]
            else []) := by
  refine ⟨apiBanRuleViolations_eq_flatMap countFile files symbol baseline, ?_, ?_, ?_, ?_⟩
  · rw [List.Perm.countP_eq _ (sortItems_perm (actualCounts countFile files symbol))]
    rw [actualCounts_eq_filterMap countFile files symbol hnd]
    have hmemS : (p, s) ∈ sortFilesByPath files :=
      (sortFilesByPath_perm files).mem_iff.mpr hmem
    have hndS : ((sortFilesByPath files).map Prod.fst).Nodup :=
      ((sortFilesByPath_perm files).map Prod.fst).nodup_iff.mpr hnd
    exact countP_key_filterMap countFile symbol (sortFilesByPath files) p s hndS hmemS
  · intro hc
    apply (sortItems_perm (actualCounts countFile files symbol)).mem_iff.mpr
    rw [actualCounts_eq_filterMap countFile files symbol hnd]
    refine List.mem_filterMap.mpr
      ⟨(p, s), (sortFilesByPath_perm files).mem_iff.mpr hmem, ?_⟩
    unfold countEntry
    rw [if_pos hc]
  · intro hb
    unfold apiBanEmission
    rw [hb]
  · intro allowed hb
    unfold apiBanEmission
    rw [hb]

/-- Witness for the amended C2 at a concrete two-file scan whose first
file exceeds its baseline. -/
theorem api_scan_per_file_violation_witness :
    apiBanRuleViolations domainFileCount [("a.rs", "std::fs std::fs"), ("b.rs", "y")]
        "std::fs" [("a.rs", 1)]
      = (sortItems (actualCounts domainFileCount
            [("a.rs", "std::fs std::fs"), ("b.rs", "y")] "std::fs")).flatMap
          (fun pc => apiBanEmission "std::fs" [("a.rs", 1)] pc.1 pc.2)
    ∧ (sortItems (actualCounts domainFileCount
          [("a.rs", "std::fs std::fs"), ("b.rs", "y")] "std::fs")).countP
            (fun pc => pc.1 == "a.rs")
        = (if 0 < domainFileCount "std::fs std::fs" "std::fs" then 1 else 0)
    ∧ (0 < domainFileCount "std::fs std::fs" "std::fs" →
        ("a.rs", domainFileCount "std::fs std::fs" "std::fs")
          ∈ sortItems (actualCounts domainFileCount
              [("a.rs", "std::fs std::fs"), ("b.rs", "y")] "std::fs"))
    ∧ (pyDictGet [("a.rs", 1)] "a.rs" = none →
        apiBanEmission "std::fs" [("a.rs", 1)] "a.rs"
            (domainFileCount "std::fs std::fs" "std::fs")
          = ["new " ++ "std::fs" ++ " usage in " ++ "a.rs" ++ " ("
              ++ toString (domainFileCount "std::fs std::fs" "std::fs") ++ " matches)"])
    ∧ (∀ allowed, pyDictGet [("a.rs", 1)] "a.rs" = some allowed →
        apiBanEmission "std::fs" [("a.rs", 1)] "a.rs"
            (domainFileCount "std::fs std::fs" "std::fs")
          = if allowed < domainFileCount "std::fs std::fs" "std::fs" then
              ["increased " ++ "std::fs" ++ " usage in " ++ "a.rs" ++ " ("
                ++ toString (domainFileCount "std::fs std::fs" "std::fs")
                ++ " > baseline " ++ toString allowed ++ ")"]
            else []) :=
  api_scan_per_file_violation domainFileCount
    [("a.rs", "std::fs std::fs"), ("b.rs", "y")] "std::fs" [("a.rs", 1)]
    "a.rs" "std::fs std::fs" (by decide) (by decide)

/-- C9: doc-comment-line exclusion is per-group, not universal: on a
file whose doc-comment line ("///", possibly indented) and code line
each mention the banned symbol, the ito-core counter sees only the code
occurrence while the ito-domain counter sees both, so at baseline 1 the
core scan reports nothing and the domain scan reports an increase. -/
theorem doc_comment_exclusion_per_group :
    coreFileCount "/// miette::doc\nuse miette::Result;\n" "miette::" = 1
    ∧ domainFileCount "/// miette::doc\nuse miette::Result;\n" "miette::" = 2
    ∧ coreFileCount "   /// miette::indented\nmiette::code" "miette::" = 1
    ∧ check_core_api_bans [("f.rs", "/// miette::doc\nuse miette::Result;\n")]
        [("miette::", [("f.rs", 1)])] = []
    ∧ check_domain_api_bans [("f.rs", "/// miette::doc\nuse miette::Result;\n")]
        [("miette::", [("f.rs", 1)])]
        = ["increased miette:: usage in f.rs (2 > baseline 1)"] :=
  ⟨by decide, by decide, by decide, by decide, by decide⟩

end ArchGuardrails
